import Mathlib

/-!
Verification of the rlox interpreter (tree-walking pipeline and bytecode
pipeline) against its natural-language specification.

The Rust sources are shallowly embedded:
* `TW` models the tree-walking pipeline (`ast/token.rs`, `ast/expr.rs`,
  `ast/stmt.rs`, `object.rs`, `env.rs`, `resolver.rs`, `interpreter.rs`,
  `class.rs`, `functions.rs`, `result.rs`).
* `BC` models the bytecode pipeline (`value.rs`, `vm.rs`, `chunk.rs`,
  `compiler.rs`, `token.rs`).

Modelling conventions:
* `f64` is modelled as `ℚ`, with an explicit NaN point adjoined where the
  bytecode pipeline can produce NaN (`BC.VF`).  The tree-walker never
  produces NaN (division by zero is an error there), so its numbers are
  plain `ℚ`.  Exact rounding of `f64` arithmetic is irrelevant to every
  property proved here (they only depend on zero tests, comparisons and
  the error/success structure).
* Rust `HashMap`s are modelled as association lists with overwriting
  insert; only lookup/insert/contains are used by the sources.
* A Rust panic (`unwrap` on `None`, `unreachable!`, `panic!`) is modelled
  by a dedicated `panicked` error constructor (or by `Option.none` for
  the fuelled compiler), kept distinct from the error enums of
  `result.rs` / `vm.rs`: a panic aborts the process and is not a
  returned error.
-/

deriving instance DecidableEq for Except

namespace TW

/-- `ast::token::Literal`: literal values carried by tokens and runtime
literal objects.  Numbers (`f64` in Rust) are modelled as `ℚ`. -/
inductive Literal where
  | nil
  | boolean (b : Bool)
  | number (n : ℚ)
  | string (s : String)
deriving DecidableEq

/-- `ast::token::Type`: the token-type enum of the tree-walker lexer. -/
inductive TokType where
  | LeftParen | RightParen | LeftBrace | RightBrace | Comma | Dot
  | Minus | Plus | Semicolon | Slash | Star
  | Bang | BangEqual | Equal | EqualEqual
  | Greater | GreaterEqual | Less | LessEqual
  | Identifier | String | Number
  | And | Class | Else | False | Fun | For | If | Nil | Or
  | Print | Return | Super | This | True | Var | While | Break
  | EOF
deriving DecidableEq

/-- `ast::token::Token`. -/
structure Token where
  typ : TokType
  lexeme : String
  literal : Option Literal
  line : Nat
  offset : Nat
deriving DecidableEq

/-- `Token::in_types`: whether the token's type is one of the given ones. -/
def Token.inTypes (t : Token) (types : List TokType) : Bool :=
  types.any (fun typ => typ == t.typ)

/-- `ast::expr::Expr`, restricted to the variants exercised by the claims
(`This`, `Call`, `Get`, `Set`, `Super` are omitted from this fragment;
the class machinery of `class.rs` is modelled separately below). -/
inductive Expr where
  | identifier (id : Token)
  | literal (lit : Token)
  | grouping (inside : Expr)
  | unary (op : Token) (rhs : Expr)
  | binary (lhs : Expr) (op : Token) (rhs : Expr)
  | assignment (id : Token) (val : Expr)
deriving DecidableEq

/-- `ast::stmt::Stmt`, restricted to the variants exercised by the claims. -/
inductive Stmt where
  | empty
  | expression (e : Expr)
  | print (e : Expr)
  | declaration (id : Token) (init : Option Expr)
  | block (body : List Stmt)

/-- `object::Object`: the tree-walker's runtime value.  The payloads of
`Func`/`Class`/`Instance` are irrelevant to truthiness, equality and
ordering (the operations the claims use), so they are modelled as bare
tags here; `class.rs` itself is modelled separately below. -/
inductive Object where
  | literal (l : Literal)
  | func
  | cls
  | inst
deriving DecidableEq

/-- `Object::is_truthy`. -/
def Object.isTruthy : Object → Bool
  | .func | .cls | .inst => true
  | .literal l =>
    match l with
    | .nil => false
    | .boolean b => b
    | .number n => n != 0
    | .string s => !(s == "")

/-- Lexicographic comparison of character lists by code point — Rust's
`str` ordering (byte-lexicographic, which agrees with code-point order
on every input exercised here). -/
def charsCmp : List Char → List Char → Ordering
  | [], [] => .eq
  | [], _ :: _ => .lt
  | _ :: _, [] => .gt
  | a :: as, b :: bs =>
      if a.toNat < b.toNat then .lt
      else if b.toNat < a.toNat then .gt
      else charsCmp as bs

/-- Rust `str::partial_cmp`. -/
def strCmp (a b : String) : Ordering := charsCmp a.data b.data

/-- `impl PartialOrd for Literal` (`ast/token.rs`): `partial_cmp`.
Nil compares equal to Nil; Strings, Numbers and Booleans compare within
their own arm; every mixed pair has no order. -/
def Literal.cmpOpt : Literal → Literal → Option Ordering
  | .nil, .nil => some .eq
  | .string l, .string r => some (strCmp l r)
  | .number l, .number r =>
      some (if l < r then .lt else if r < l then .gt else .eq)
  | .boolean l, .boolean r =>
      some (if l == r then .eq else if l == false then .lt else .gt)
  | _, _ => none

/-- `impl PartialOrd for Object` (`object.rs`): only literal/literal pairs
delegate to `Literal::partial_cmp`; everything else is `None`. -/
def Object.cmpOpt : Object → Object → Option Ordering
  | .literal l, .literal r => Literal.cmpOpt l r
  | _, _ => none

/-- `impl PartialEq for Object` (`object.rs`): literal/literal pairs use
`Literal` equality, all other pairs (including Func/Func) are `false`. -/
def Object.peq : Object → Object → Bool
  | .literal l, .literal r => l == r
  | _, _ => false

/-- `result::Error`, with an extra `panicked` constructor modelling a Rust
panic (distinct from every returned error). -/
inductive Err where
  | usage
  | lexical (line : Nat) (msg near : String)
  | parse (line : Nat) (msg near : String)
  | runtime (line : Nat) (msg near : String)
  | brk (line : Nat)
  | ret (line : Nat) (val : Object)
  | panicked (msg : String)
deriving DecidableEq

/-- One environment frame: the `vals: RefCell<HashMap<String, Object>>` of
an `Env`, as an association list. -/
abbrev Scope := List (String × Object)

/-- `HashMap::insert`: overwrite the binding if present, else add it. -/
def scopeInsert (n : String) (v : Object) : Scope → Scope
  | [] => [(n, v)]
  | (n', v') :: rest =>
      if n' == n then (n', v) :: rest else (n', v') :: scopeInsert n v rest

/-- `HashMap::get`. -/
def scopeGet (sc : Scope) (n : String) : Option Object := sc.lookup n

/-- An `Rc<Env>` chain.  The head is the current environment, the last
element is the root (global) environment; the tail of each position is
its `parent`.  The programs in this fragment build no closures, so the
live environments always form one chain and mutation of a shared parent
is modelled by rebuilding the list. -/
abbrev EnvChain := List Scope

/-- `Env::define` on the current (head) environment: errors if the name is
already bound in this same environment. -/
def Env.define (c : EnvChain) (id : Token) (val : Object) :
    Except Err EnvChain :=
  match c with
  | [] => .error (.panicked "no environment")
  | sc :: rest =>
      if (scopeGet sc id.lexeme).isSome then
        .error (.runtime id.line
          ("variable `" ++ id.lexeme ++ "` already defined") id.lexeme)
      else
        .ok (scopeInsert id.lexeme val sc :: rest)

/-- `Env::assign`: walk from the current environment towards the root and
overwrite the first binding of the name; error only at the root. -/
def Env.assign (c : EnvChain) (id : Token) (val : Object) :
    Except Err (Object × EnvChain) :=
  match c with
  | [] => .error (.panicked "no environment")
  | sc :: rest =>
      if (scopeGet sc id.lexeme).isSome then
        .ok (val, scopeInsert id.lexeme val sc :: rest)
      else
        match rest with
        | [] => .error (.runtime id.line
            ("variable `" ++ id.lexeme ++ "` is undefined") id.lexeme)
        | _ :: _ => (Env.assign rest id val).map (fun p => (p.1, sc :: p.2))

/-- `Env::get`: walk from the current environment towards the root. -/
def Env.get (c : EnvChain) (id : Token) : Except Err Object :=
  match c with
  | [] => .error (.panicked "no environment")
  | sc :: rest =>
      match scopeGet sc id.lexeme with
      | some v => .ok v
      | none =>
          match rest with
          | [] => .error (.runtime id.line
              ("variable `" ++ id.lexeme ++ "` is undefined") id.lexeme)
          | _ :: _ => Env.get rest id

/-- `Env::get_global`: recurse to the root environment, then `get` there. -/
def Env.getGlobal (c : EnvChain) (id : Token) : Except Err Object :=
  match c with
  | [] => .error (.panicked "no environment")
  | [sc] => Env.get [sc] id
  | _ :: rest => Env.getGlobal rest id

/-- The `parent` link of the head environment (`None` at the root). -/
def parentOf (c : EnvChain) : Option EnvChain :=
  match c with
  | [] => none
  | [_] => none
  | _ :: rest => some rest

/-- `Env::ancestor`: start at the parent and follow `parent` links
`dist - 1` more times; `none` once a root is passed. -/
def Env.ancestor (c : EnvChain) (dist : Nat) : Option EnvChain :=
  Nat.rec (parentOf c) (fun _ acc => acc.bind parentOf) (dist - 1)

/-- `Env::get_at`: no recorded depth means global lookup; depth `0` reads
from the current environment (which itself walks up on a miss); a
positive depth first walks to the ancestor. -/
def Env.getAt (c : EnvChain) (id : Token) (dist : Option Nat) :
    Except Err Object :=
  match dist with
  | none => Env.getGlobal c id
  | some 0 => Env.get c id
  | some d =>
      match Env.ancestor c d with
      | some anc => Env.get anc id
      | none => .error (.runtime id.line
          ("ancestor is undefined at depth " ++ toString d) id.lexeme)

/-- `Env::assign_at`.  The ancestor returned by `Env.ancestor c d` is the
suffix `c.drop d` of the chain (shared state in Rust), so writing through
it is modelled by re-attaching the first `d` frames. -/
def Env.assignAt (c : EnvChain) (id : Token) (val : Object)
    (dist : Option Nat) : Except Err (Object × EnvChain) :=
  if dist.getD 0 = 0 then
    Env.assign c id val
  else
    let d := dist.getD 0
    match Env.ancestor c d with
    | some anc =>
        (Env.assign anc id val).map
          (fun p => (p.1, c.take d ++ p.2))
    | none => .error (.runtime id.line
        ("ancestor is undefined at depth " ++ toString d) id.lexeme)

/-- The resolver's scope stack entry: `name -> defined?`. -/
abbrev RScope := List (String × Bool)

/-- `HashMap::insert` on a resolver scope. -/
def rscopeInsert (n : String) (v : Bool) : RScope → RScope
  | [] => [(n, v)]
  | (n', v') :: rest =>
      if n' == n then (n', v) :: rest else (n', v') :: rscopeInsert n v rest

/-- The interpreter's side-table `HashMap<Expr, usize>` (`locals`),
keyed by structural equality of expressions exactly as in the source
(`Expr` derives `Hash`/`Eq` and tokens carry line/offset, so distinct
occurrences are distinct keys). -/
abbrev Locals := List (Expr × Nat)

/-- `HashMap::insert` on the side-table (`Interpreter::resolve`). -/
def localsInsert (e : Expr) (d : Nat) : Locals → Locals
  | [] => [(e, d)]
  | (e', d') :: rest =>
      if e' == e then (e', d) :: rest else (e', d') :: localsInsert e d rest

/-- `HashMap::get` on the side-table. -/
def localsGet (loc : Locals) (e : Expr) : Option Nat := loc.lookup e

/-- `Resolver` state: the scope stack (head = innermost scope, i.e. the
top of the Rust `Vec`) and the interpreter's `locals` table it writes
into.  `current_function`/`current_class` stay `None` throughout this
statement fragment (no functions, classes, `this`, `super`, `return`),
so they are omitted. -/
structure ResolverSt where
  scopes : List RScope
  locals : Locals

/-- `Resolver::declare`: error on a duplicate name in the innermost scope;
no-op when the scope stack is empty (global scope). -/
def Resolver.declare (st : ResolverSt) (id : Token) : Except Err ResolverSt :=
  match st.scopes with
  | [] => .ok st
  | sc :: rest =>
      if ((sc : RScope).lookup id.lexeme).isSome then
        .error (.parse id.line
          "variable already defined with that name in this scope" id.lexeme)
      else
        .ok ⟨rscopeInsert id.lexeme false sc :: rest, st.locals⟩

/-- `Resolver::define`: mark the name defined in the innermost scope. -/
def Resolver.defineName (st : ResolverSt) (id : Token) : ResolverSt :=
  match st.scopes with
  | [] => st
  | sc :: rest => ⟨rscopeInsert id.lexeme true sc :: rest, st.locals⟩

/-- The scan of `Resolver::resolve_local`: the index (from the innermost
scope) of the first scope containing the name, i.e. the recorded depth
`scopes.len() - 1 - i`. -/
def findDepth : List RScope → String → Option Nat
  | [], _ => none
  | sc :: rest, n =>
      if ((sc : RScope).lookup n).isSome then some 0
      else (findDepth rest n).map (· + 1)

/-- `Resolver::resolve_local`: record the depth for `e` via
`Interpreter::resolve` when the name is found on the scope stack. -/
def Resolver.resolveLocal (st : ResolverSt) (id : Token) (e : Expr) :
    ResolverSt :=
  match findDepth st.scopes id.lexeme with
  | some d => ⟨st.scopes, localsInsert e d st.locals⟩
  | none => st

/-- The resolver's expression walk (`impl ExprVisitor for Resolver`). -/
def resolveExpr : ResolverSt → Expr → Except Err ResolverSt
  | st, .identifier id =>
      let ownInit : Bool :=
        match st.scopes.head? with
        | some sc =>
            match (sc : RScope).lookup id.lexeme with
            | some d => !d
            | none => false
        | none => false
      if ownInit then
        .error (.parse id.line
          "cannot read local variable in its own initializer." id.lexeme)
      else
        .ok (Resolver.resolveLocal st id (.identifier id))
  | st, .literal _ => .ok st
  | st, .grouping e => resolveExpr st e
  | st, .unary _ rhs => resolveExpr st rhs
  | st, .binary lhs _ rhs => do
      let st ← resolveExpr st lhs
      resolveExpr st rhs
  | st, .assignment id val => do
      let st ← resolveExpr st val
      .ok (Resolver.resolveLocal st id (.assignment id val))

mutual

/-- The resolver's statement walk (`impl StmtVisitor for Resolver`).
`Empty` falls through to the default `visit_stmt` which returns `Ok`. -/
def resolveStmt : ResolverSt → Stmt → Except Err ResolverSt
  | st, .empty => .ok st
  | st, .expression e => resolveExpr st e
  | st, .print e => resolveExpr st e
  | st, .declaration id init => do
      let st ← Resolver.declare st id
      let st ← match init with
        | some e => resolveExpr st e
        | none => .ok st
      .ok (Resolver.defineName st id)
  | st, .block body => do
      let st ← resolveStmts ⟨[] :: st.scopes, st.locals⟩ body
      .ok ⟨st.scopes.tail, st.locals⟩

/-- Resolve a statement list in order. -/
def resolveStmts : ResolverSt → List Stmt → Except Err ResolverSt
  | st, [] => .ok st
  | st, s :: rest => do
      let st ← resolveStmt st s
      resolveStmts st rest

end

/-- Approximation of Rust's `Display` for `ast::token::Literal` (used by
string concatenation and error texts; number formatting differs from the
host's `f64` formatting but no claim depends on it). -/
def Literal.display : Literal → String
  | .nil => "nil"
  | .boolean b => toString b
  | .number n => toString n
  | .string s => s

/-- Approximation of Rust's `Debug` for `ast::token::Literal`. -/
def Literal.dbg : Literal → String
  | .nil => "Nil"
  | .boolean b => "Boolean(" ++ toString b ++ ")"
  | .number n => "Number(" ++ toString n ++ ")"
  | .string s => "String(" ++ s ++ ")"

/-- Approximation of Rust's `Debug` for `object::Object`. -/
def Object.dbg : Object → String
  | .literal l => "Literal(" ++ l.dbg ++ ")"
  | .func => "Func"
  | .cls => "Class"
  | .inst => "Instance"

/-- The non-logical part of `Interpreter::visit_binary` (`interpreter.rs`
lines 106-152): both operands are already evaluated, the operator token
selects the arm.  `Or`/`And` never reach this function (they are
redirected to `visit_logical` first). -/
def visitBinaryOp (op : Token) (l r : Object) : Except Err Object :=
  match op.typ with
  | .Plus =>
      match l, r with
      | .literal (.number ln), .literal (.number rn) =>
          .ok (.literal (.number (ln + rn)))
      | .literal (.string ln), .literal r' =>
          .ok (.literal (.string (ln ++ r'.display)))
      | .literal l', .literal (.string rn) =>
          .ok (.literal (.string (l'.display ++ rn)))
      | _, _ => .error (.runtime op.line "cannot add mixed types"
          (l.dbg ++ " + " ++ r.dbg))
  | .Minus =>
      match l, r with
      | .literal (.number ln), .literal (.number rn) =>
          .ok (.literal (.number (ln - rn)))
      | _, _ => .error (.runtime op.line "cannot subtract non-numerics"
          (l.dbg ++ " - " ++ r.dbg))
  | .Star =>
      match l, r with
      | .literal (.number ln), .literal (.number rn) =>
          .ok (.literal (.number (ln * rn)))
      | _, _ => .error (.runtime op.line "cannot multiply non-numerics"
          (l.dbg ++ " * " ++ r.dbg))
  | .Slash =>
      match l, r with
      | .literal (.number ln), .literal (.number rn) =>
          if rn = 0 then
            .error (.runtime op.line "divide by zero"
              (toString ln ++ " / " ++ toString rn))
          else
            .ok (.literal (.number (ln / rn)))
      | _, _ => .error (.runtime op.line "cannot multiply non-numerics"
          (l.dbg ++ " * " ++ r.dbg))
  | .Greater | .GreaterEqual | .Less | .LessEqual =>
      match Object.cmpOpt l r with
      | some .lt => .ok (.literal (.boolean (op.inTypes [.Less, .LessEqual])))
      | some .eq =>
          .ok (.literal (.boolean (op.inTypes [.LessEqual, .GreaterEqual])))
      | some .gt =>
          .ok (.literal (.boolean (op.inTypes [.Greater, .GreaterEqual])))
      | none => .error (.runtime op.line "cannot compare types"
          (l.dbg ++ " ? " ++ r.dbg))
  | .EqualEqual => .ok (.literal (.boolean (Object.peq l r)))
  | .BangEqual => .ok (.literal (.boolean (!Object.peq l r)))
  | _ => .error (.runtime op.line "erroneous binary operator" op.lexeme)

/-- `impl ExprVisitor for Interpreter`: big-step evaluation threading the
environment chain.  The `assignment` arm looks the depth up under the
**value** subexpression (`self.locals.get(val)` in
`Interpreter::visit_assignment`), exactly as the source does. -/
def evalExpr (loc : Locals) : Expr → EnvChain → Except Err (Object × EnvChain)
  | .identifier id, env =>
      (Env.getAt env id (localsGet loc (.identifier id))).map (fun o => (o, env))
  | .literal tk, env =>
      match tk.literal with
      | some l => .ok (.literal l, env)
      | none => .error (.panicked "token literal is None")
  | .grouping e, env => evalExpr loc e env
  | .unary op rhs, env => do
      let (r, env) ← evalExpr loc rhs env
      match op.typ with
      | .Minus =>
          match r with
          | .literal (.number n) => .ok (.literal (.number (-n)), env)
          | _ => .error (.runtime op.line "cannot negate non-numeric" r.dbg)
      | .Bang => .ok (.literal (.boolean (!r.isTruthy)), env)
      | _ => .error (.runtime op.line "erroneous unary operator" op.lexeme)
  | .binary lhs op rhs, env =>
      if op.inTypes [.Or, .And] then
        -- `Interpreter::visit_logical`
        match evalExpr loc lhs env with
        | .error e => .error e
        | .ok (l, env) =>
            if op.typ == .And then
              if l.isTruthy then
                (evalExpr loc rhs env).map
                  (fun p => (.literal (.boolean p.1.isTruthy), p.2))
              else .ok (.literal (.boolean false), env)
            else if op.typ == .Or then
              if l.isTruthy then .ok (.literal (.boolean true), env)
              else
                (evalExpr loc rhs env).map
                  (fun p => (.literal (.boolean p.1.isTruthy), p.2))
            else .ok (.literal (.boolean false), env)
      else do
        let (l, env) ← evalExpr loc lhs env
        let (r, env) ← evalExpr loc rhs env
        (visitBinaryOp op l r).map (fun o => (o, env))
  | .assignment id val, env => do
      let (v, env) ← evalExpr loc val env
      Env.assignAt env id v (localsGet loc val)

mutual

/-- `impl StmtVisitor for Interpreter` (non-REPL mode, as in
`Runner::file`), threading the environment chain and the list of values
written by `print`. -/
def execStmt (loc : Locals) :
    Stmt → EnvChain → List Object → Except Err (EnvChain × List Object)
  | .empty, env, out => .ok (env, out)
  | .expression e, env, out =>
      (evalExpr loc e env).map (fun p => (p.2, out))
  | .print e, env, out =>
      (evalExpr loc e env).map (fun p => (p.2, out ++ [p.1]))
  | .declaration id init, env, out => do
      let (v, env) ← match init with
        | none => .ok ((Object.literal .nil : Object), env)
        | some e => evalExpr loc e env
      (Env.define env id v).map (fun env => (env, out))
  | .block body, env, out => do
      let (env, out) ← execStmts loc body ([] :: env) out
      .ok (env.tail, out)

/-- Execute a statement list in order (`Interpreter::visit_block` body). -/
def execStmts (loc : Locals) :
    List Stmt → EnvChain → List Object → Except Err (EnvChain × List Object)
  | [], env, out => .ok (env, out)
  | s :: rest, env, out => do
      let (env, out) ← execStmt loc s env out
      execStmts loc rest env out

end

/-- The initial global environment: `Env::new` defines the builtin
`clock` function (`Callable::define_globals`). -/
def initialEnv : EnvChain := [[("clock", Object.func)]]

/-- `Runner::run`: for each top-level statement, `Resolver::resolve` with
a fresh scope stack (accumulating into the shared `locals` table), then
interpret.  Returns the final `locals`, environment and print output. -/
def runStmts :
    List Stmt → Locals → EnvChain → List Object →
    Except Err (Locals × EnvChain × List Object)
  | [], loc, env, out => .ok (loc, env, out)
  | s :: rest, loc, env, out => do
      let res ← resolveStmt ⟨[], loc⟩ s
      let (env, out) ← execStmt res.locals s env out
      runStmts rest res.locals env out

/-- Run a program from the initial state and keep the printed values. -/
def runProgram (stmts : List Stmt) : Except Err (List Object) :=
  (runStmts stmts [] initialEnv []).map (fun t => t.2.2)

/-- The `locals` table the resolver produces for a program. -/
def resolveProgram (stmts : List Stmt) : Except Err Locals :=
  (resolveStmts ⟨[], []⟩ stmts).map (fun st => st.locals)

/-- Modelled from the spec (§3 Invariants, claim C1): the variant
evaluator in which an assignment is executed by walking exactly the depth
the resolver recorded **for that assignment expression** (the resolver
keys the depth on the assignment node itself in
`Resolver::visit_assignment`).  It differs from `evalExpr` only in the
final line of the `assignment` arm. -/
def evalExprSpec (loc : Locals) :
    Expr → EnvChain → Except Err (Object × EnvChain)
  | .identifier id, env =>
      (Env.getAt env id (localsGet loc (.identifier id))).map (fun o => (o, env))
  | .literal tk, env =>
      match tk.literal with
      | some l => .ok (.literal l, env)
      | none => .error (.panicked "token literal is None")
  | .grouping e, env => evalExprSpec loc e env
  | .unary op rhs, env => do
      let (r, env) ← evalExprSpec loc rhs env
      match op.typ with
      | .Minus =>
          match r with
          | .literal (.number n) => .ok (.literal (.number (-n)), env)
          | _ => .error (.runtime op.line "cannot negate non-numeric" r.dbg)
      | .Bang => .ok (.literal (.boolean (!r.isTruthy)), env)
      | _ => .error (.runtime op.line "erroneous unary operator" op.lexeme)
  | .binary lhs op rhs, env =>
      if op.inTypes [.Or, .And] then
        match evalExprSpec loc lhs env with
        | .error e => .error e
        | .ok (l, env) =>
            if op.typ == .And then
              if l.isTruthy then
                (evalExprSpec loc rhs env).map
                  (fun p => (.literal (.boolean p.1.isTruthy), p.2))
              else .ok (.literal (.boolean false), env)
            else if op.typ == .Or then
              if l.isTruthy then .ok (.literal (.boolean true), env)
              else
                (evalExprSpec loc rhs env).map
                  (fun p => (.literal (.boolean p.1.isTruthy), p.2))
            else .ok (.literal (.boolean false), env)
      else do
        let (l, env) ← evalExprSpec loc lhs env
        let (r, env) ← evalExprSpec loc rhs env
        (visitBinaryOp op l r).map (fun o => (o, env))
  | .assignment id val, env => do
      let (v, env) ← evalExprSpec loc val env
      Env.assignAt env id v (localsGet loc (.assignment id val))

mutual

/-- Statement execution over `evalExprSpec` (spec-variant of `execStmt`). -/
def execStmtSpec (loc : Locals) :
    Stmt → EnvChain → List Object → Except Err (EnvChain × List Object)
  | .empty, env, out => .ok (env, out)
  | .expression e, env, out =>
      (evalExprSpec loc e env).map (fun p => (p.2, out))
  | .print e, env, out =>
      (evalExprSpec loc e env).map (fun p => (p.2, out ++ [p.1]))
  | .declaration id init, env, out => do
      let (v, env) ← match init with
        | none => .ok ((Object.literal .nil : Object), env)
        | some e => evalExprSpec loc e env
      (Env.define env id v).map (fun env => (env, out))
  | .block body, env, out => do
      let (env, out) ← execStmtsSpec loc body ([] :: env) out
      .ok (env.tail, out)

/-- Spec-variant of `execStmts`. -/
def execStmtsSpec (loc : Locals) :
    List Stmt → EnvChain → List Object → Except Err (EnvChain × List Object)
  | [], env, out => .ok (env, out)
  | s :: rest, env, out => do
      let (env, out) ← execStmtSpec loc s env out
      execStmtsSpec loc rest env out

end

/-- Spec-variant of `runStmts`. -/
def runStmtsSpec :
    List Stmt → Locals → EnvChain → List Object →
    Except Err (Locals × EnvChain × List Object)
  | [], loc, env, out => .ok (loc, env, out)
  | s :: rest, loc, env, out => do
      let res ← resolveStmt ⟨[], loc⟩ s
      let (env, out) ← execStmtSpec res.locals s env out
      runStmtsSpec rest res.locals env out

/-- Spec-variant of `runProgram`. -/
def runProgramSpec (stmts : List Stmt) : Except Err (List Object) :=
  (runStmtsSpec stmts [] initialEnv []).map (fun t => t.2.2)

/-- An identifier token at a source position (the position distinguishes
occurrences, as `Token` equality includes `line`/`offset`). -/
def idTok (n : String) (line off : Nat) : Token :=
  ⟨.Identifier, n, none, line, off⟩

/-- A number-literal token. -/
def numTok (q : ℚ) (line : Nat) : Token := ⟨.Number, "", some (.number q), line, 0⟩

/-- A string-literal token. -/
def strTok (s : String) (line : Nat) : Token := ⟨.String, s, some (.string s), line, 0⟩

/-- An operator/keyword token. -/
def opTok (t : TokType) (lx : String) (line : Nat) : Token := ⟨t, lx, none, line, 0⟩

/-- The claim-C1 failing program:
```
{ var a = 10; { var b = 20; { var a = 30; a = b; print a; } } print a; }
```
The resolver records depth `0` for the assignment `a = b` (the inner `a`)
and depth `1` for its right-hand side `b`. -/
def c1prog : Stmt :=
  .block [
    .declaration (idTok "a" 1 0) (some (.literal (numTok 10 1))),
    .block [
      .declaration (idTok "b" 2 0) (some (.literal (numTok 20 2))),
      .block [
        .declaration (idTok "a" 3 0) (some (.literal (numTok 30 3))),
        .expression (.assignment (idTok "a" 4 0) (.identifier (idTok "b" 4 4))),
        .print (.identifier (idTok "a" 5 0))
      ]
    ],
    .print (.identifier (idTok "a" 6 0))
  ]

/-- The assignment expression inside `c1prog`. -/
def c1assign : Expr := .assignment (idTok "a" 4 0) (.identifier (idTok "b" 4 4))

/-- The claim-C3 counterexample program: `var a = 10; var a = 20;` at the
global scope. -/
def c3prog : List Stmt :=
  [.declaration (idTok "a" 1 0) (some (.literal (numTok 10 1))),
   .declaration (idTok "a" 1 14) (some (.literal (numTok 20 1)))]

/-!
`class.rs` / `functions.rs` model.  `CFunc` is `functions::LoxFunction`
(the payload of `Callable::Runtime`, the only `Callable` variant that
`Interpreter::visit_class` stores in a method table); its captured scope
is an `Env` chain of frames, its body is not needed by the claims about
property lookup.  `CClass` is `class::LoxClass`, `CInst` is
`class::LoxInstance` (its `loc` token does not affect `get`).
-/
mutual

/-- Runtime objects for the class model (`object::Object`). -/
inductive CObj where
  | literal (l : Literal)
  | func (f : CFunc)
  | cls (c : CClass)
  | inst (i : CInst)

/-- `functions::LoxFunction`. -/
inductive CFunc where
  | mk (scope : List (List (String × CObj))) (params : List String)
       (initFlag : Bool)

/-- `class::LoxClass`. -/
inductive CClass where
  | mk (name : String) (parent : Option CClass)
       (methods : List (String × CFunc))

/-- `class::LoxInstance`. -/
inductive CInst where
  | mk (fields : List (String × CObj)) (klass : CClass)

end

/-- `LoxClass::find_method`: the class's own method table first, then the
parent chain. -/
def CClass.findMethod : CClass → String → Option CFunc
  | .mk _ parent methods, n =>
      match methods.lookup n with
      | some m => some m
      | none =>
          match parent with
          | some p => CClass.findMethod p n
          | none => none

/-- `LoxFunction::bind`: a fresh child environment of the captured scope
defining `this` as the instance (`Env::from` + `define(&THIS_ID, inst)`). -/
def CFunc.bind : CFunc → CInst → CFunc
  | .mk scope params initFlag, i =>
      .mk ([("this", CObj.inst i)] :: scope) params initFlag

/-- `LoxInstance::get`: fields first (a field shadows a method), then the
class's method chain with the method bound to this instance, else an
`undefined property` runtime error. -/
def CInst.get : CInst → Token → Except Err CObj
  | .mk fields klass, field =>
      match fields.lookup field.lexeme with
      | some obj => .ok obj
      | none =>
          match CClass.findMethod klass field.lexeme with
          | some m => .ok (.func (CFunc.bind m (.mk fields klass)))
          | none => .error (.runtime field.line
              ("undefined property `" ++ field.lexeme ++ "`") field.lexeme)

end TW

namespace BC

/-- `f64` for the bytecode pipeline: a rational with an explicit NaN
point (`std::f64::NAN` is produced by `Value::divide`).  Infinities never
arise in the operations the claims exercise. -/
inductive VF where
  | fin (q : ℚ)
  | nan
deriving DecidableEq

/-- IEEE `== 0.0` (false for NaN). -/
def VF.eqZero : VF → Bool
  | .fin q => q == 0
  | .nan => false

/-- IEEE equality (NaN equal to nothing). -/
def VF.eq : VF → VF → Bool
  | .fin a, .fin b => a == b
  | _, _ => false

/-- IEEE `partial_cmp` (none when NaN is involved). -/
def VF.cmpOpt : VF → VF → Option Ordering
  | .fin a, .fin b =>
      some (if a < b then .lt else if b < a then .gt else .eq)
  | _, _ => none

/-- IEEE negation. -/
def VF.neg : VF → VF
  | .fin q => .fin (-q)
  | .nan => .nan

/-- IEEE addition (NaN propagates). -/
def VF.add : VF → VF → VF
  | .fin a, .fin b => .fin (a + b)
  | _, _ => .nan

/-- IEEE subtraction (NaN propagates). -/
def VF.sub : VF → VF → VF
  | .fin a, .fin b => .fin (a - b)
  | _, _ => .nan

/-- IEEE multiplication (NaN propagates). -/
def VF.mul : VF → VF → VF
  | .fin a, .fin b => .fin (a * b)
  | _, _ => .nan

/-- IEEE division for a non-zero divisor (the zero-divisor case is handled
before this is reached, in `Value::divide`). -/
def VF.div : VF → VF → VF
  | .fin a, .fin b => .fin (a / b)
  | _, _ => .nan

/-- `value::Error`. -/
inductive VError where
  | MustBeANumber
deriving DecidableEq

/-- `value::Value` (`Obj(Object::String(Lexeme))` is flattened to the
string's text, which is all `Lexeme::value` exposes to the operations). -/
inductive Value where
  | nil
  | number (x : VF)
  | bool (b : Bool)
  | str (s : String)
deriving DecidableEq

/-- `Value::any` / `Value::both_any` never fail. -/
def Value.anyChk (_ : Value) : Except VError Unit := .ok ()

/-- `Value::is_number`. -/
def Value.isNumberChk : Value → Except VError Unit
  | .number _ => .ok ()
  | _ => .error .MustBeANumber

/-- `Value::both_numbers`. -/
def Value.bothNumbers (l r : Value) : Except VError Unit := do
  Value.isNumberChk l
  Value.isNumberChk r

/-- `Value::both_any`. -/
def Value.bothAny (_ _ : Value) : Except VError Unit := .ok ()

/-- `impl PartialEq for Value` (`value.rs`): same-arm structural equality
(IEEE for numbers), `false` across arms. -/
def Value.peq : Value → Value → Bool
  | .nil, .nil => true
  | .number a, .number b => VF.eq a b
  | .bool a, .bool b => a == b
  | .str a, .str b => a == b
  | _, _ => false

/-- `Value::equals`. -/
def Value.equals (l r : Value) : Value := .bool (Value.peq l r)

/-- `impl PartialOrd for Value`: only Number/Number pairs compare. -/
def Value.cmpOpt : Value → Value → Option Ordering
  | .number a, .number b => VF.cmpOpt a b
  | _, _ => none

/-- `Value::less_than` (`self.lt(rhs)`). -/
def Value.lessThan (l r : Value) : Value :=
  .bool (match Value.cmpOpt l r with | some .lt => true | _ => false)

/-- `Value::greater_than` (`self.gt(rhs)`). -/
def Value.greaterThan (l r : Value) : Value :=
  .bool (match Value.cmpOpt l r with | some .gt => true | _ => false)

/-- `Value::is_not` exactly as written in `value.rs`: note that the `Nil`
arm returns `self.clone()` — i.e. `Nil` — rather than a Boolean. -/
def Value.isNot : Value → Value
  | .nil => .nil
  | .bool b => .bool (!b)
  | .number x => .bool (VF.eqZero x)
  | .str s => .bool (s == "")

/-- `Value::negate`; `none` models the `unreachable!()` panic. -/
def Value.negate : Value → Option Value
  | .number x => some (.number (VF.neg x))
  | _ => none

/-- `Value::divide`: an explicit NaN result on a zero divisor, `none`
models the `unreachable!()` panic on non-numbers. -/
def Value.divide : Value → Value → Option Value
  | .number a, .number b =>
      if VF.eqZero b then some (.number .nan)
      else some (.number (VF.div a b))
  | _, _ => none

/-- `Value::multiply`; `none` models the `unreachable!()` panic. -/
def Value.multiply : Value → Value → Option Value
  | .number a, .number b => some (.number (VF.mul a b))
  | _, _ => none

/-- `Value::add`: numeric sum or string concatenation; every other pair
hits the `unreachable!()` panic, modelled by `none`. -/
def Value.add : Value → Value → Option Value
  | .number a, .number b => some (.number (VF.add a b))
  | .str l, .str r => some (.str (l ++ r))
  | _, _ => none

/-- `Value::subtract`; `none` models the `unreachable!()` panic. -/
def Value.subtract : Value → Value → Option Value
  | .number a, .number b => some (.number (VF.sub a b))
  | _, _ => none

/-- `vm::Error`, with `panicked` modelling a Rust panic (a process abort,
not one of the error variants the VM can return). -/
inductive VMErr where
  | io
  | compile
  | valueErr (e : VError)
  | runtime
  | undefinedVariable (name : String)
  | panicked (msg : String)
deriving DecidableEq

/-- `VMExecution::run_unary_op`.  The stack is modelled head-topmost. -/
def runUnaryOp (check : Value → Except VError Unit)
    (op : Value → Option Value) (stack : List Value) :
    Except VMErr (List Value) :=
  match stack with
  | [] => .error .runtime
  | v :: rest =>
      match check v with
      | .error e => .error (.valueErr e)
      | .ok () =>
          match op v with
          | some r => .ok (r :: rest)
          | none => .error (.panicked "unreachable")

/-- `VMExecution::run_binary_op`: the top of the stack is the right
operand; on success the two operands are replaced by the result. -/
def runBinaryOp (check : Value → Value → Except VError Unit)
    (op : Value → Value → Option Value) (stack : List Value) :
    Except VMErr (List Value) :=
  match stack with
  | right :: left :: rest =>
      match check left right with
      | .error e => .error (.valueErr e)
      | .ok () =>
          match op left right with
          | some v => .ok (v :: rest)
          | none => .error (.panicked "unreachable")
  | _ => .error .runtime

/-- `chunk::OpCode`. -/
inductive OpCode where
  | Unknown
  | Return
  | Constant8 | Constant16 | Constant24
  | Negate
  | Add | Subtract | Multiply | Divide
  | True | False | Nil
  | Not
  | Equal | Greater | Less
  | Print | Pop
  | DefineGlobal8 | DefineGlobal16 | DefineGlobal24
  | GetGlobal8 | GetGlobal16 | GetGlobal24
  | SetGlobal8 | SetGlobal16 | SetGlobal24
deriving DecidableEq

/-- The stack effect of one tick of `VMExecution::run` for the
operand-free opcodes (those whose semantics do not touch the chunk, the
globals table or output).  `Print` pops and writes; the written text is
not modelled.  The chunk/global opcodes are dispatched by the
surrounding loop and are outside this helper. -/
def vmStep (op : OpCode) (stack : List Value) : Except VMErr (List Value) :=
  match op with
  | .True => .ok (.bool true :: stack)
  | .False => .ok (.bool false :: stack)
  | .Nil => .ok (.nil :: stack)
  | .Not => runUnaryOp Value.anyChk (fun v => some v.isNot) stack
  | .Negate => runUnaryOp Value.isNumberChk Value.negate stack
  | .Add => runBinaryOp Value.bothAny Value.add stack
  | .Subtract => runBinaryOp Value.bothNumbers Value.subtract stack
  | .Multiply => runBinaryOp Value.bothNumbers Value.multiply stack
  | .Divide => runBinaryOp Value.bothNumbers Value.divide stack
  | .Equal => runBinaryOp Value.bothAny (fun a b => some (Value.equals a b)) stack
  | .Greater =>
      runBinaryOp Value.bothNumbers (fun a b => some (Value.greaterThan a b)) stack
  | .Less =>
      runBinaryOp Value.bothNumbers (fun a b => some (Value.lessThan a b)) stack
  | .Print | .Pop =>
      match stack with
      | _ :: rest => .ok rest
      | [] => .error .runtime
  | .Unknown => .error .runtime
  | _ => .error (.panicked "opcode needs chunk context; outside this helper")

/-- `chunk.rs`: `const MAX_8: usize = u8::max_value() as usize`. -/
def MAX_8 : Nat := 255

/-- `chunk.rs`: `const MAX_16: usize = u16::max_value() as usize`. -/
def MAX_16 : Nat := 65535

/-- `chunk.rs`: `const MAX_24: usize = MAX_16 * 8` — exactly as written in
the source (which is *not* the maximum 24-bit value `2^24 - 1`). -/
def MAX_24 : Nat := MAX_16 * 8

/-- `NativeEndian::write_u16` on x86-64 (little endian). -/
def u16BytesLE (x : Nat) : List Nat := [x % 256, x / 256 % 256]

/-- `NativeEndian::write_u24` on x86-64 (little endian). -/
def u24BytesLE (x : Nat) : List Nat := [x % 256, x / 256 % 256, x / 65536 % 256]

/-- `Chunk::write_idx`: select the 8-, 16- or 24-bit opcode variant from
the triple and encode the index; `none` models the
`panic!("usize value overflow")` arm. -/
def writeIdx (ops : OpCode × OpCode × OpCode) (idx : Nat) :
    Option (OpCode × List Nat) :=
  if idx ≤ MAX_8 then some (ops.1, [idx % 256])
  else if idx ≤ MAX_16 then some (ops.2.1, u16BytesLE idx)
  else if idx < MAX_24 then some (ops.2.2, u24BytesLE idx)
  else none

/-- The opcode triple for constants (`Chunk::write_const`). -/
def constOps : OpCode × OpCode × OpCode := (.Constant8, .Constant16, .Constant24)

/-- The opcode triple for `Compiler::define_variable`. -/
def defineGlobalOps : OpCode × OpCode × OpCode :=
  (.DefineGlobal8, .DefineGlobal16, .DefineGlobal24)

/-- The opcode triple for reading a named variable. -/
def getGlobalOps : OpCode × OpCode × OpCode :=
  (.GetGlobal8, .GetGlobal16, .GetGlobal24)

/-- The opcode triple for assigning a named variable. -/
def setGlobalOps : OpCode × OpCode × OpCode :=
  (.SetGlobal8, .SetGlobal16, .SetGlobal24)

/-- `token::ErrorType` (bytecode pipeline). -/
inductive ErrorType where
  | UnexpectedChar
  | UnterminatedString
  | DoesNotExist
deriving DecidableEq

/-- `token::TokenType` (bytecode pipeline; lexical errors are tokens). -/
inductive TokenType where
  | LeftParen | RightParen | LeftBrace | RightBrace | Comma | Dot
  | Minus | Plus | Semicolon | Slash | Star
  | Bang | BangEqual | Equal | EqualEqual
  | Greater | GreaterEqual | Less | LessEqual
  | Identifier | String | Number
  | And | Class | Else | False | For | Fun | If | Nil | Or
  | Print | Return | Super | This | True | Var | While | Break
  | Error (e : ErrorType)
deriving DecidableEq

/-- `token::Token` (bytecode pipeline).  `lexeme` is the text of the
`Lexeme` view; `num` carries the value `lexeme.parse::<f64>()` yields for
number tokens (`none` models a parse failure, which the compiler turns
into NaN). -/
structure CTok where
  t : TokenType
  lexeme : String
  line : Nat
  num : Option ℚ
deriving DecidableEq

/-- `compiler::Precedence`. -/
inductive Precedence where
  | None | Assignment | Or | And | Equality | Comparison
  | Term | Factor | Unary | Call | Primary
deriving DecidableEq

/-- Rank of a precedence level (`derive(PartialOrd)` on the C-like enum
orders by declaration order). -/
def Precedence.toNat : Precedence → Nat
  | .None => 0
  | .Assignment => 1
  | .Or => 2
  | .And => 3
  | .Equality => 4
  | .Comparison => 5
  | .Term => 6
  | .Factor => 7
  | .Unary => 8
  | .Call => 9
  | .Primary => 10

/-- `<=` on precedences. -/
def Precedence.leb (a b : Precedence) : Bool := Nat.ble a.toNat b.toNat

/-- `Precedence::next`. -/
def Precedence.next : Precedence → Precedence
  | .None => .Assignment
  | .Assignment => .Or
  | .Or => .And
  | .And => .Equality
  | .Equality => .Comparison
  | .Comparison => .Term
  | .Term => .Factor
  | .Factor => .Unary
  | .Unary => .Call
  | .Call => .Primary
  | .Primary => .Primary

/-- `impl From<TokenType> for Precedence`. -/
def Precedence.ofTok : TokenType → Precedence
  | .LeftParen | .Dot => .Call
  | .Minus | .Plus => .Term
  | .Slash | .Star => .Factor
  | .BangEqual | .EqualEqual => .Equality
  | .Greater | .GreaterEqual | .Less | .LessEqual => .Comparison
  | .And => .And
  | .Or => .Or
  | _ => .None

/-- `chunk::Chunk`: the instruction stream as a list of
(opcode, operand bytes) pairs — a 1-1 recoding of the flat byte vector —
plus the constants table.  The compressed line table is not modelled; no
claim concerns it. -/
structure Chunk where
  code : List (OpCode × List Nat)
  constants : List Value
deriving DecidableEq

/-- `compiler::Error` (a unit struct). -/
inductive CompileError where
  | mk
deriving DecidableEq

/-- `compiler::Compiler` state.  The scanner is modelled by the list of
tokens it will yield (`toks`); `reported` is instrumentation recording
each message actually reported by `Compiler::error` (i.e. those not
suppressed by `panic_mode`). -/
structure CompilerSt where
  toks : List CTok
  previous : Option CTok
  current : Option CTok
  hasError : Bool
  panicMode : Bool
  chunk : Chunk
  reported : List String
deriving DecidableEq

/-- `Compiler::error`: suppressed while in panic mode, otherwise sets
both flags and reports. -/
def reportError (msg : String) (st : CompilerSt) : CompilerSt :=
  if st.panicMode then st
  else { st with panicMode := true, hasError := true,
                 reported := st.reported ++ [msg] }

/-- The loop inside `Compiler::advance`: pull tokens, reporting lexical
error tokens (as "syntax error") and skipping them. -/
def advanceLoop : List CTok → CompilerSt → CompilerSt
  | [], st => { st with toks := [], current := none }
  | tk :: rest, st =>
      match tk.t with
      | .Error _ => advanceLoop rest (reportError "syntax error" st)
      | _ => { st with toks := rest, current := some tk }

/-- `Compiler::advance`. -/
def advance (st : CompilerSt) : CompilerSt :=
  advanceLoop st.toks { st with previous := st.current, current := none }

/-- `Compiler::check`. -/
def check (st : CompilerSt) (typ : TokenType) : Bool :=
  match st.current with
  | some tk => tk.t == typ
  | none => false

/-- `Compiler::matches`. -/
def matchesTok (typ : TokenType) (st : CompilerSt) : Bool × CompilerSt :=
  if check st typ then (true, advance st) else (false, st)

/-- `Compiler::consume`. -/
def consume (typ : TokenType) (st : CompilerSt) : CompilerSt :=
  match st.current with
  | some tk => if tk.t == typ then advance st else reportError "expected token" st
  | none => reportError "expected token" st

/-- `Compiler::prev_type` (`Error(DoesNotExist)` when absent). -/
def prevType (st : CompilerSt) : TokenType :=
  match st.previous with
  | some tk => tk.t
  | none => .Error .DoesNotExist

/-- `Compiler::curr_type`. -/
def currType (st : CompilerSt) : TokenType :=
  match st.current with
  | some tk => tk.t
  | none => .Error .DoesNotExist

/-- `Chunk::write`. -/
def chunkWrite (op : OpCode) (data : List Nat) (st : CompilerSt) : CompilerSt :=
  { st with chunk := ⟨st.chunk.code ++ [(op, data)], st.chunk.constants⟩ }

/-- `Compiler::write_simple`. -/
def writeSimpleC (op : OpCode) (st : CompilerSt) : CompilerSt :=
  chunkWrite op [] st

/-- `Chunk::make_const`. -/
def makeConst (v : Value) (st : CompilerSt) : Nat × CompilerSt :=
  (st.chunk.constants.length,
   { st with chunk := ⟨st.chunk.code, st.chunk.constants ++ [v]⟩ })

/-- `Chunk::write_idx` applied to the compiler state (`none` models the
overflow panic). -/
def writeIdxC (ops : OpCode × OpCode × OpCode) (idx : Nat)
    (st : CompilerSt) : Option CompilerSt :=
  (writeIdx ops idx).map (fun p => chunkWrite p.1 p.2 st)

/-- `Chunk::write_const`. -/
def writeConstC (v : Value) (st : CompilerSt) : Option CompilerSt :=
  let (idx, st) := makeConst v st
  writeIdxC constOps idx st

/-- `Compiler::number`: the previous token's parsed value (NaN on a parse
failure or a missing token). -/
def numberVal (st : CompilerSt) : VF :=
  match st.previous with
  | none => .nan
  | some tk =>
      match tk.num with
      | some q => .fin q
      | none => .nan

/-- `Compiler::number`. -/
def numberFn (st : CompilerSt) : Option CompilerSt :=
  writeConstC (.number (numberVal st)) st

/-- `Compiler::literal`; `none` models the `unreachable!()` arm. -/
def literalFn (st : CompilerSt) : Option CompilerSt :=
  match prevType st with
  | .True => some (writeSimpleC .True st)
  | .False => some (writeSimpleC .False st)
  | .Nil => some (writeSimpleC .Nil st)
  | _ => none

/-- `Compiler::string`: the previous token's lexeme with the surrounding
quotes trimmed becomes a string constant; `none` models the `unwrap`. -/
def stringFn (st : CompilerSt) : Option CompilerSt :=
  match st.previous with
  | none => none
  | some tk => writeConstC (.str ((tk.lexeme.drop 1).dropRight 1)) st

/-- `Compiler::identifier_const`; `none` models the `unwrap`. -/
def identifierConst (st : CompilerSt) : Option (Nat × CompilerSt) :=
  match st.previous with
  | none => none
  | some tk => some (makeConst (.str tk.lexeme) st)

/-- `Compiler::parse_variable`. -/
def parseVariable (st : CompilerSt) : Option (Nat × CompilerSt) :=
  identifierConst (consume .Identifier st)

/-- `Compiler::define_variable`. -/
def defineVariable (idx : Nat) (st : CompilerSt) : Option CompilerSt :=
  writeIdxC defineGlobalOps idx st

/-- The `while` loop of `Compiler::synchronize`.  Its body never advances
the token stream, so whenever neither exit condition holds on entry the
source loops forever — modelled by fuel exhaustion (`none`).  Exiting by
the loop condition falls through to a final `advance`. -/
def syncLoop : Nat → CompilerSt → Option CompilerSt
  | 0, _ => none
  | fuel + 1, st =>
      match st.current with
      | none => some (advance st)
      | some ctk =>
          match st.previous with
          | none => none
          | some ptk =>
              if ptk.t == .Semicolon then some st
              else
                match ctk.t with
                | .Class | .Fun | .Var | .For | .If | .While
                | .Print | .Return => some st
                | _ => syncLoop fuel st

/-- `Compiler::synchronize`: note that it **resets `has_error`** (and
never resets `panic_mode`). -/
def synchronize (fuel : Nat) (st : CompilerSt) : Option CompilerSt :=
  if !st.hasError then some st
  else syncLoop fuel { st with hasError := false }

mutual

/-- `Compiler::declaration` (fuelled). -/
def declarationC : Nat → CompilerSt → Option CompilerSt
  | 0, _ => none
  | fuel + 1, st =>
      let (m, st) := matchesTok .Var st
      let r := if m then variableDeclarationC fuel st else statementC fuel st
      r.bind (synchronize fuel)

/-- `Compiler::statement`. -/
def statementC : Nat → CompilerSt → Option CompilerSt
  | 0, _ => none
  | fuel + 1, st =>
      let (m, st) := matchesTok .Print st
      if m then printStatementC fuel st else expressionStatementC fuel st

/-- `Compiler::variable_declaration`. -/
def variableDeclarationC : Nat → CompilerSt → Option CompilerSt
  | 0, _ => none
  | fuel + 1, st => do
      let (g, st) ← parseVariable st
      let (m, st) := matchesTok .Equal st
      let st ← if m then expressionC fuel st else some (writeSimpleC .Nil st)
      let st := consume .Semicolon st
      defineVariable g st

/-- `Compiler::print_statement`. -/
def printStatementC : Nat → CompilerSt → Option CompilerSt
  | 0, _ => none
  | fuel + 1, st => do
      let st ← expressionC fuel st
      let st := consume .Semicolon st
      some (writeSimpleC .Print st)

/-- `Compiler::expression_statement`. -/
def expressionStatementC : Nat → CompilerSt → Option CompilerSt
  | 0, _ => none
  | fuel + 1, st => do
      let st ← expressionC fuel st
      let st := consume .Semicolon st
      some (writeSimpleC .Pop st)

/-- `Compiler::expression`. -/
def expressionC : Nat → CompilerSt → Option CompilerSt
  | 0, _ => none
  | fuel + 1, st => parsePrecedenceC fuel .Assignment st

/-- `Compiler::parse_precedence`. -/
def parsePrecedenceC : Nat → Precedence → CompilerSt → Option CompilerSt
  | 0, _, _ => none
  | fuel + 1, prec, st => do
      let st := advance st
      let canAssign := prec.leb .Assignment
      let (handled, st) ← callPreRule fuel (prevType st) canAssign st
      if !handled then
        some (reportError "expect expression" st)
      else do
        let st ← opLoop fuel prec st
        let (m, st) := matchesTok .Equal st
        if canAssign && m then
          expressionC fuel (reportError "invalid assignment target" st)
        else
          some st

/-- The infix `while` loop of `Compiler::parse_precedence`. -/
def opLoop : Nat → Precedence → CompilerSt → Option CompilerSt
  | 0, _, _ => none
  | fuel + 1, prec, st =>
      if prec.leb (Precedence.ofTok (currType st)) then do
        let st := advance st
        let st ← callInfRule fuel (prevType st) st
        opLoop fuel prec st
      else some st

/-- `Compiler::call_prefix`: the Boolean is whether a rule fired. -/
def callPreRule :
    Nat → TokenType → Bool → CompilerSt → Option (Bool × CompilerSt)
  | 0, _, _, _ => none
  | fuel + 1, typ, canAssign, st =>
      match typ with
      | .LeftParen => (groupingC fuel st).map (fun st => (true, st))
      | .Minus | .Bang => (unaryC fuel st).map (fun st => (true, st))
      | .Number => (numberFn st).map (fun st => (true, st))
      | .True | .False | .Nil => (literalFn st).map (fun st => (true, st))
      | .String => (stringFn st).map (fun st => (true, st))
      | .Identifier =>
          (namedVariableC fuel canAssign st).map (fun st => (true, st))
      | _ => some (false, st)

/-- `Compiler::call_infix` (no-op for every other token type). -/
def callInfRule : Nat → TokenType → CompilerSt → Option CompilerSt
  | 0, _, _ => none
  | fuel + 1, typ, st =>
      match typ with
      | .Minus | .Plus | .Slash | .Star
      | .BangEqual | .EqualEqual
      | .Greater | .GreaterEqual | .Less | .LessEqual => binaryC fuel st
      | _ => some st

/-- `Compiler::grouping`. -/
def groupingC : Nat → CompilerSt → Option CompilerSt
  | 0, _ => none
  | fuel + 1, st => do
      let st ← expressionC fuel st
      some (consume .RightParen st)

/-- `Compiler::unary`; `none` after the match models `unreachable!()`. -/
def unaryC : Nat → CompilerSt → Option CompilerSt
  | 0, _ => none
  | fuel + 1, st => do
      let op := prevType st
      let st ← parsePrecedenceC fuel .Unary st
      match op with
      | .Minus => some (writeSimpleC .Negate st)
      | .Bang => some (writeSimpleC .Not st)
      | _ => none

/-- `Compiler::binary` (including the `EQUAL`+`NOT` / `LESS`+`NOT` /
`GREATER`+`NOT` desugarings). -/
def binaryC : Nat → CompilerSt → Option CompilerSt
  | 0, _ => none
  | fuel + 1, st => do
      let op := prevType st
      let st ← parsePrecedenceC fuel (Precedence.ofTok op).next st
      match op with
      | .Plus => some (writeSimpleC .Add st)
      | .Minus => some (writeSimpleC .Subtract st)
      | .Star => some (writeSimpleC .Multiply st)
      | .Slash => some (writeSimpleC .Divide st)
      | .EqualEqual => some (writeSimpleC .Equal st)
      | .BangEqual => some (writeSimpleC .Not (writeSimpleC .Equal st))
      | .Greater => some (writeSimpleC .Greater st)
      | .GreaterEqual => some (writeSimpleC .Not (writeSimpleC .Less st))
      | .Less => some (writeSimpleC .Less st)
      | .LessEqual => some (writeSimpleC .Not (writeSimpleC .Greater st))
      | _ => none

/-- `Compiler::named_variable`; `none` at the start models the `unwrap`. -/
def namedVariableC : Nat → Bool → CompilerSt → Option CompilerSt
  | 0, _, _ => none
  | fuel + 1, canAssign, st =>
      match st.previous with
      | none => none
      | some tk => do
          let (idx, st) := makeConst (.str tk.lexeme) st
          let (m, st) := matchesTok .Equal st
          if canAssign && m then do
            let st ← expressionC fuel st
            writeIdxC setGlobalOps idx st
          else
            writeIdxC getGlobalOps idx st

end

/-- The `while self.current.is_some()` loop of `Compiler::compile`. -/
def compileLoop : Nat → CompilerSt → Option CompilerSt
  | 0, _ => none
  | fuel + 1, st =>
      match st.current with
      | none => some st
      | some _ => (declarationC fuel st).bind (compileLoop fuel)

/-- `Compiler::compile` over a token stream: prime with `advance`, parse
declarations until the stream ends, then return a `Compile` error iff
`has_error` is still set.  The result also carries the list of reported
error messages (the instrumentation of `Compiler::error`).  `none` is
fuel exhaustion or a Rust panic. -/
def compileModel (toks : List CTok) (fuel : Nat) :
    Option (Except CompileError Chunk × List String) :=
  let st : CompilerSt := ⟨toks, none, none, false, false, ⟨[], []⟩, []⟩
  let st := advance st
  (compileLoop fuel st).map
    (fun st => (if st.hasError then .error .mk else .ok st.chunk, st.reported))

/-- The token stream of the source `";"`. -/
def semiTok : CTok := ⟨.Semicolon, ";", 1, none⟩

/-- A `print` keyword token. -/
def printTok : CTok := ⟨.Print, "print", 1, none⟩

/-- The number token `42`. -/
def num42Tok : CTok := ⟨.Number, "42", 1, some 42⟩

end BC


/-!
Claim theorems.
-/

/-- C1: the claim states that an identifier / `this` / `super` /
assignment expression with recorded depth `d` is evaluated by walking
exactly `d` parent links.  The code violates it for assignments:
`Interpreter::visit_assignment` looks the depth up under the **value**
subexpression (`self.locals.get(val)`), not under the assignment
expression the resolver keyed (`Resolver::visit_assignment` records it
for `expr`).  On the program
`{ var a = 10; { var b = 20; { var a = 30; a = b; print a; } } print a; }`
the resolver records depth 0 for `a = b`, yet the interpreter walks 1
link (the depth of `b`), assigns the **outer** `a` and prints `30, 20`;
walking the recorded depth 0 (`runProgramSpec`) prints `20, 10`. -/
theorem c1_assignment_depth_bug :
    (TW.resolveProgram [TW.c1prog]).map (fun loc => TW.localsGet loc TW.c1assign)
      = .ok (some 0)
  ∧ TW.runProgram [TW.c1prog] =
      .ok [.literal (.number 30), .literal (.number 20)]
  ∧ TW.runProgramSpec [TW.c1prog] =
      .ok [.literal (.number 20), .literal (.number 10)]
  ∧ TW.runProgram [TW.c1prog] ≠ TW.runProgramSpec [TW.c1prog] := by decide

/-- C2 (counterexample): the claim states that a comparison fails for
every pair that is not two Numbers, but `"a" < "b"` evaluates to the
Boolean `true` (Strings are ordered by `Literal::partial_cmp`). -/
theorem c2_counterexample :
    TW.evalExpr [] (.binary (.literal (TW.strTok "a" 1)) (TW.opTok .Less "<" 1)
        (.literal (TW.strTok "b" 1))) TW.initialEnv
      = .ok (.literal (.boolean true), TW.initialEnv) := by decide

/-- C2 (amended): a binary comparison `< <= > >=` yields the Boolean of
the underlying partial order whenever it is defined — both Numbers, both
Strings (lexicographic), both Booleans (`false < true`), or both nil
(equal) — and fails with the runtime error "cannot compare types" for
every pair with no order (mixed literal arms and every non-literal
operand). -/
theorem c2_comparison_amended (op : TW.Token) (l r : TW.Object)
    (hop : op.typ = .Greater ∨ op.typ = .GreaterEqual ∨
           op.typ = .Less ∨ op.typ = .LessEqual) :
    (∀ o, TW.Object.cmpOpt l r = some o →
        TW.visitBinaryOp op l r = .ok (.literal (.boolean
          (match o with
           | .lt => op.inTypes [.Less, .LessEqual]
           | .eq => op.inTypes [.LessEqual, .GreaterEqual]
           | .gt => op.inTypes [.Greater, .GreaterEqual]))))
  ∧ (TW.Object.cmpOpt l r = none →
        TW.visitBinaryOp op l r
          = .error (.runtime op.line "cannot compare types"
              (l.dbg ++ " ? " ++ r.dbg)))
  ∧ ((TW.Object.cmpOpt l r).isSome ↔
        ((∃ a b : ℚ, l = .literal (.number a) ∧ r = .literal (.number b))
        ∨ (∃ s t : String, l = .literal (.string s) ∧ r = .literal (.string t))
        ∨ (∃ a b : Bool, l = .literal (.boolean a) ∧ r = .literal (.boolean b))
        ∨ (l = .literal .nil ∧ r = .literal .nil)))
  ∧ (∀ a b : ℚ, a < b →
        TW.Object.cmpOpt (.literal (.number a)) (.literal (.number b))
          = some .lt) := by
  refine ⟨?_, ?_, ?_, ?_⟩
  · intro o ho
    rcases hop with h | h | h | h <;>
      simp [TW.visitBinaryOp, h, ho] <;> cases o <;> simp
  · intro ho
    rcases hop with h | h | h | h <;> simp [TW.visitBinaryOp, h, ho]
  · cases l with
    | literal ll =>
        cases r with
        | literal rl => cases ll <;> cases rl <;>
            simp [TW.Object.cmpOpt, TW.Literal.cmpOpt]
        | _ => cases ll <;> simp [TW.Object.cmpOpt]
    | _ => simp [TW.Object.cmpOpt]
  · intro a b hab
    simp [TW.Object.cmpOpt, TW.Literal.cmpOpt, hab]

/-- Witness for C2 (amended): a Number/nil pair errors, and
`false < true` yields `true`. -/
theorem c2_comparison_amended_witness :
    TW.visitBinaryOp (TW.opTok .Less "<" 1) (.literal (.number 1)) (.literal .nil)
      = .error (.runtime 1 "cannot compare types"
          ((TW.Object.literal (.number 1)).dbg ++ " ? " ++ (TW.Object.literal .nil).dbg))
  ∧ TW.visitBinaryOp (TW.opTok .Less "<" 1)
        (.literal (.boolean false)) (.literal (.boolean true))
      = .ok (.literal (.boolean true)) :=
  ⟨(c2_comparison_amended (TW.opTok .Less "<" 1) (.literal (.number 1)) (.literal .nil)
      (Or.inr (Or.inr (Or.inl rfl)))).2.1 rfl,
   (c2_comparison_amended (TW.opTok .Less "<" 1)
      (.literal (.boolean false)) (.literal (.boolean true))
      (Or.inr (Or.inr (Or.inl rfl)))).1 .lt rfl⟩

/-- C3 (counterexample): the claim states that re-declaring a name with
`var` in the global environment succeeds and rebinds it, but
`var a = 10; var a = 20;` at the top level fails with the runtime error
`variable `a` already defined` (`Env::define` rejects duplicates in every
environment). -/
theorem c3_counterexample :
    TW.runProgram TW.c3prog =
      .error (.runtime 1 "variable `a` already defined" "a") := by decide

/-- C3 (amended): executing a `var` declaration whose name is already
bound in the current environment is a runtime error in **every**
environment, the global one included; a declaration without an
initialiser binds `nil`. -/
theorem c3_var_decl_amended (sc : TW.Scope) (rest : TW.EnvChain)
    (id : TW.Token) (v : TW.Object) (loc : TW.Locals) (out : List TW.Object) :
    ((TW.scopeGet sc id.lexeme).isSome →
        TW.Env.define (sc :: rest) id v
          = .error (.runtime id.line
              ("variable `" ++ id.lexeme ++ "` already defined") id.lexeme))
  ∧ ((TW.scopeGet sc id.lexeme).isSome →
        TW.execStmt loc (.declaration id none) (sc :: rest) out
          = .error (.runtime id.line
              ("variable `" ++ id.lexeme ++ "` already defined") id.lexeme))
  ∧ ((TW.scopeGet sc id.lexeme).isNone →
        TW.execStmt loc (.declaration id none) (sc :: rest) out
          = .ok (TW.scopeInsert id.lexeme (.literal .nil) sc :: rest, out)) := by
  refine ⟨?_, ?_, ?_⟩ <;> intro h <;>
    simp_all [TW.Env.define, TW.execStmt, Option.isNone_iff_eq_none,
      bind, Except.bind, Except.map]

/-- Witness for C3 (amended): a duplicate `a` errors even in a root
(global) environment, and `var b;` binds `nil`. -/
theorem c3_var_decl_amended_witness :
    TW.Env.define [[("a", TW.Object.literal (.number 1))]] (TW.idTok "a" 1 0)
        (.literal (.number 2))
      = .error (.runtime 1 "variable `a` already defined" "a")
  ∧ TW.execStmt [] (.declaration (TW.idTok "b" 2 0) none)
        [[("a", TW.Object.literal (.number 1))]] []
      = .ok ([[("a", TW.Object.literal (.number 1)), ("b", TW.Object.literal .nil)]], []) :=
  ⟨(c3_var_decl_amended [("a", TW.Object.literal (.number 1))] [] (TW.idTok "a" 1 0)
      (.literal (.number 2)) [] []).1 (by decide),
   (c3_var_decl_amended [("a", TW.Object.literal (.number 1))] [] (TW.idTok "b" 2 0)
      (.literal (.number 2)) [] []).2.2 (by decide)⟩

/-- C4: `and`/`or` short-circuit and always produce the Boolean of the
truthiness of the deciding value.  When `e1` is falsey, `e1 and e2`
yields `false` with the state after `e1` for **every** `e2` (so `e2` is
never evaluated — in particular `false and f()` never calls `f`);
symmetrically `e1 or e2` with truthy `e1` yields `true` for every `e2`.
In the evaluated cases the result is the truthiness of `e2` as a
Boolean. -/
theorem c4_logical_short_circuit (loc : TW.Locals) (e1 e2 : TW.Expr)
    (env env1 : TW.EnvChain) (l : TW.Object) (opA opO : TW.Token)
    (hA : opA.typ = .And) (hO : opO.typ = .Or)
    (h : TW.evalExpr loc e1 env = .ok (l, env1)) :
    (l.isTruthy = false →
        TW.evalExpr loc (.binary e1 opA e2) env
          = .ok (.literal (.boolean false), env1))
  ∧ (l.isTruthy = true →
        TW.evalExpr loc (.binary e1 opA e2) env
          = (TW.evalExpr loc e2 env1).map
              (fun p => (.literal (.boolean p.1.isTruthy), p.2)))
  ∧ (l.isTruthy = true →
        TW.evalExpr loc (.binary e1 opO e2) env
          = .ok (.literal (.boolean true), env1))
  ∧ (l.isTruthy = false →
        TW.evalExpr loc (.binary e1 opO e2) env
          = (TW.evalExpr loc e2 env1).map
              (fun p => (.literal (.boolean p.1.isTruthy), p.2))) := by
  refine ⟨?_, ?_, ?_, ?_⟩ <;> intro ht <;>
    simp [TW.evalExpr, TW.Token.inTypes, hA, hO, h, ht]

/-- Witness for C4: `0 and 5` yields `false` (0 is falsey here) and
`7 or 5` yields `true`, in both cases without touching the state. -/
theorem c4_logical_short_circuit_witness :
    TW.evalExpr [] (.binary (.literal (TW.numTok 0 1)) (TW.opTok .And "and" 1)
        (.literal (TW.numTok 5 1))) TW.initialEnv
      = .ok (.literal (.boolean false), TW.initialEnv)
  ∧ TW.evalExpr [] (.binary (.literal (TW.numTok 7 1)) (TW.opTok .Or "or" 1)
        (.literal (TW.numTok 5 1))) TW.initialEnv
      = .ok (.literal (.boolean true), TW.initialEnv) :=
  ⟨(c4_logical_short_circuit [] (.literal (TW.numTok 0 1)) (.literal (TW.numTok 5 1))
      TW.initialEnv TW.initialEnv (.literal (.number 0))
      (TW.opTok .And "and" 1) (TW.opTok .Or "or" 1) rfl rfl rfl).1 (by decide),
   (c4_logical_short_circuit [] (.literal (TW.numTok 7 1)) (.literal (TW.numTok 5 1))
      TW.initialEnv TW.initialEnv (.literal (.number 7))
      (TW.opTok .And "and" 1) (TW.opTok .Or "or" 1) rfl rfl rfl).2.2.1 (by decide)⟩

/-- C5: division by zero diverges between the backends exactly as
mandated — the tree-walker raises the runtime error "divide by zero"
whenever both operands evaluate to Numbers with a zero right operand,
while the VM's `DIVIDE` opcode on two Numbers with a zero divisor pushes
NaN and does not error. -/
theorem c5_divide_by_zero (loc : TW.Locals) (e1 e2 : TW.Expr)
    (env env1 env2 : TW.EnvChain) (a : ℚ) (op : TW.Token)
    (hop : op.typ = .Slash)
    (h1 : TW.evalExpr loc e1 env = .ok (.literal (.number a), env1))
    (h2 : TW.evalExpr loc e2 env1 = .ok (.literal (.number 0), env2)) :
    TW.evalExpr loc (.binary e1 op e2) env
      = .error (.runtime op.line "divide by zero"
          (toString a ++ " / " ++ toString (0 : ℚ)))
  ∧ ∀ (x : BC.VF) (rest : List BC.Value),
      BC.vmStep .Divide (.number (.fin 0) :: .number x :: rest)
        = .ok (.number .nan :: rest) := by
  constructor
  · simp [TW.evalExpr, TW.Token.inTypes, hop, h1, h2, TW.visitBinaryOp,
      bind, Except.bind, Except.map]
  · intro x rest
    simp [BC.vmStep, BC.runBinaryOp, BC.Value.bothNumbers, BC.Value.isNumberChk,
      BC.Value.divide, BC.VF.eqZero, bind, Except.bind]

/-- Witness for C5: `1 / 0` is a runtime error in the tree-walker. -/
theorem c5_divide_by_zero_witness :
    TW.evalExpr [] (.binary (.literal (TW.numTok 1 1)) (TW.opTok .Slash "/" 1)
        (.literal (TW.numTok 0 1))) TW.initialEnv
      = .error (.runtime 1 "divide by zero"
          (toString (1 : ℚ) ++ " / " ++ toString (0 : ℚ))) :=
  (c5_divide_by_zero [] (.literal (TW.numTok 1 1)) (.literal (TW.numTok 0 1))
    TW.initialEnv TW.initialEnv TW.initialEnv 1 (TW.opTok .Slash "/" 1)
    rfl rfl rfl).1

/-- C6: `Chunk::write_idx` selects the 8/16/24-bit variants at the
claim's sample indices 0, 255, 256, 65535, 65536 as stated, but the
claim's universal statement fails: `MAX_24` is `MAX_16 * 8 = 524280`
(not the maximum 24-bit value) and the guard is strict, so every index
from 524280 up — though representable in 24 bits — hits the
`panic!("usize value overflow")` arm instead of the 24-bit variant. -/
theorem c6_write_idx_max24 :
    BC.writeIdx BC.constOps 0 = some (.Constant8, [0])
  ∧ BC.writeIdx BC.constOps 255 = some (.Constant8, [255])
  ∧ BC.writeIdx BC.constOps 256 = some (.Constant16, [0, 1])
  ∧ BC.writeIdx BC.constOps 65535 = some (.Constant16, [255, 255])
  ∧ BC.writeIdx BC.constOps 65536 = some (.Constant24, [0, 0, 1])
  ∧ BC.writeIdx BC.constOps 524279 = some (.Constant24, [247, 255, 7])
  ∧ BC.writeIdx BC.constOps 524280 = none
  ∧ 524280 < 2 ^ 24 := by decide

/-- C7: compiling the source `";"` reports the parse error
"expect expression", yet `Compiler::compile` returns `Ok` — because
`Compiler::synchronize` (run after every declaration) resets
`has_error`, the final `has_error` check never sees the error.  A clean
source (`print 42;`) compiles with no report, so the reported error is
what distinguishes the two runs. -/
theorem c7_compile_swallows_error :
    BC.compileModel [BC.semiTok] 50 =
      some (.ok ⟨[(.Pop, [])], []⟩, ["expect expression"])
  ∧ BC.compileModel [BC.printTok, BC.num42Tok, BC.semiTok] 50 =
      some (.ok ⟨[(.Constant8, [0]), (.Print, [])], [.number (.fin 42)]⟩, []) := by
  decide

/-- C8: the VM's `ADD` sums two Numbers and concatenates two Strings,
but a mixed pair does **not** fail with a runtime error: the type check
used is `Value::both_any` (which accepts everything) and `Value::add`
then hits its `unreachable!()` arm — a panic that aborts the process. -/
theorem c8_add_mixed_panics :
    BC.vmStep .Add [.number (.fin 1), .number (.fin 2)] = .ok [.number (.fin 3)]
  ∧ BC.vmStep .Add [.str "b", .str "a"] = .ok [.str "ab"]
  ∧ BC.vmStep .Add [.str "a", .number (.fin 1)] = .error (.panicked "unreachable")
  ∧ BC.vmStep .Add [.number (.fin 1), .str "a"] = .error (.panicked "unreachable") := by
  refine ⟨?_, by decide, by decide, by decide⟩
  simp [BC.vmStep, BC.runBinaryOp, BC.Value.bothAny, BC.Value.add, BC.VF.add]
  norm_num

/-- C9: the claim says `NOT` maps every operand to a Boolean (`true`
exactly on falsey values), but `Value::is_not` returns `self.clone()` on
`Nil`: `NOT nil` pushes `Nil`, not a Boolean.  All other arms match the
claim (`false`, the number 0 and `""` map to `true`; other values to
`false`). -/
theorem c9_not_nil_not_boolean :
    BC.vmStep .Not [.nil] = .ok [.nil]
  ∧ BC.Value.isNot .nil = .nil
  ∧ BC.vmStep .Not [.bool false] = .ok [.bool true]
  ∧ BC.vmStep .Not [.number (.fin 0)] = .ok [.bool true]
  ∧ BC.vmStep .Not [.str ""] = .ok [.bool true]
  ∧ BC.vmStep .Not [.number (.fin 5)] = .ok [.bool false]
  ∧ BC.vmStep .Not [.str "x"] = .ok [.bool false]
  ∧ ∀ b : Bool, BC.vmStep .Not [.nil] ≠ .ok [.bool b] := by decide

/-- C10: property get on an instance returns the field value when the
field map contains the name (a field shadows a same-named method);
otherwise the class and then its ancestors are searched
(`LoxClass::find_method`) and the method is returned bound to the
instance (`LoxFunction::bind` prepends a scope defining `this` to the
captured environment); otherwise the `undefined property` runtime error
is raised. -/
theorem c10_instance_get (fields : List (String × TW.CObj)) (klass : TW.CClass)
    (field : TW.Token) :
    (∀ v, fields.lookup field.lexeme = some v →
        TW.CInst.get (.mk fields klass) field = .ok v)
  ∧ (fields.lookup field.lexeme = none →
        ∀ m, TW.CClass.findMethod klass field.lexeme = some m →
          TW.CInst.get (.mk fields klass) field
            = .ok (.func (TW.CFunc.bind m (.mk fields klass))))
  ∧ (fields.lookup field.lexeme = none →
        TW.CClass.findMethod klass field.lexeme = none →
          TW.CInst.get (.mk fields klass) field
            = .error (.runtime field.line
                ("undefined property `" ++ field.lexeme ++ "`") field.lexeme))
  ∧ (∀ (nm : String) (ms : List (String × TW.CFunc)) (n : String),
        ms.lookup n = none →
          TW.CClass.findMethod (.mk nm (some klass) ms) n
            = TW.CClass.findMethod klass n)
  ∧ (∀ (sc : List (List (String × TW.CObj))) (ps : List String) (ini : Bool)
        (i : TW.CInst),
        TW.CFunc.bind (.mk sc ps ini) i
          = .mk ([("this", TW.CObj.inst i)] :: sc) ps ini) := by
  refine ⟨?_, ?_, ?_, ?_, ?_⟩
  · intro v hv; simp [TW.CInst.get, hv]
  · intro hf m hm; simp [TW.CInst.get, hf, hm]
  · intro hf hm; simp [TW.CInst.get, hf, hm]
  · intro nm ms n hn; simp [TW.CClass.findMethod, hn]
  · intro sc ps ini i; rfl

/-- Witness for C10: a field `x` shadows the method `x`, and the method
`m` is returned bound to the instance (its scope gains a `this` frame). -/
theorem c10_instance_get_witness :
    TW.CInst.get
        (.mk [("x", .literal (.number 7))]
          (.mk "P" none [("x", .mk [] [] false), ("m", .mk [] ["p"] false)]))
        (TW.idTok "x" 1 0)
      = .ok (.literal (.number 7))
  ∧ TW.CInst.get
        (.mk [("x", .literal (.number 7))]
          (.mk "P" none [("x", .mk [] [] false), ("m", .mk [] ["p"] false)]))
        (TW.idTok "m" 1 0)
      = .ok (.func (.mk
          [[("this", TW.CObj.inst (.mk [("x", .literal (.number 7))]
              (.mk "P" none [("x", .mk [] [] false), ("m", .mk [] ["p"] false)])))]]
          ["p"] false)) :=
  ⟨(c10_instance_get [("x", .literal (.number 7))]
      (.mk "P" none [("x", .mk [] [] false), ("m", .mk [] ["p"] false)])
      (TW.idTok "x" 1 0)).1 (.literal (.number 7)) rfl,
   (c10_instance_get [("x", .literal (.number 7))]
      (.mk "P" none [("x", .mk [] [] false), ("m", .mk [] ["p"] false)])
      (TW.idTok "m" 1 0)).2.1 rfl (.mk [] ["p"] false) rfl⟩
